import Mathlib

/-!
Verification of the Session Registry subsystem of the BACH FileCommander
server (`src/index.ts`), shallowly embedded in Lean 4.

The embedding covers the two in-memory registries the specification calls
the core: background directory searches (`searchSessions`) and interactive
subprocess sessions (`processSessions`).  Handlers are modelled as pure
functions from an explicit registry state to a result together with the
updated state; the single-threaded event loop of the source serializes all
mutations, so a handler invocation corresponds to one such pure step.
Markdown rendering of results is kept where a claim inspects the reported
text and elided (in favour of the handler's structured local values) where
the specification scopes formatting out.
-/

namespace FC

/-- Result of one tool handler: the source returns a content text together
with an optional `isError: true` flag.  `ok` models a non-error response,
`err` a structured error response. -/
inductive ToolRes where
  | ok (text : String)
  | err (text : String)
deriving DecidableEq, Repr

/-- Whether a handler result is a non-error response. -/
def ToolRes.isOk : ToolRes → Bool
  | .ok _ => true
  | .err _ => false

/-! ### Insertion-ordered string-keyed maps

The source keeps both registries in javascript `Map`s: insertion-ordered,
`get`/`set`/`delete` by key.  We model them as association lists. -/

/-- Model of `Map.get`. -/
def lookupSess {α : Type} : List (String × α) → String → Option α
  | [], _ => none
  | (k', v) :: rest, k => if k' = k then some v else lookupSess rest k

/-- Model of mutating the session object stored under a key in place
(javascript object reference semantics). -/
def updateSess {α : Type} (f : α → α) : List (String × α) → String → List (String × α)
  | [], _ => []
  | (k', v) :: rest, k =>
      if k' = k then (k', f v) :: updateSess f rest k else (k', v) :: updateSess f rest k

/-- Model of `Map.delete`. -/
def eraseSess {α : Type} : List (String × α) → String → List (String × α)
  | [], _ => []
  | (k', v) :: rest, k =>
      if k' = k then eraseSess rest k else (k', v) :: eraseSess rest k

/-- Model of `Map.set` on a fresh key: javascript `Map` appends new keys in
insertion order. -/
def insertSess {α : Type} (m : List (String × α)) (k : String) (v : α) : List (String × α) :=
  m ++ [(k, v)]

/-! ### Process sessions (`interface ProcessSession`, `fc_start_session`,
`fc_read_output`, `fc_list_sessions`, `fc_close_session`) -/

/-- Model of `interface ProcessSession` (src/index.ts:40-49).  The live
`process` handle is represented by the data the registry operations
consult; `startTime` (wall clock, diagnostic runtime display only) is
omitted. -/
structure ProcessSession where
  id : String
  command : String
  args : List String
  cwd : String
  output : List String
  isRunning : Bool
deriving DecidableEq, Repr

/-- Model of the `proc.stdout.on('data', ...)` handler
(src/index.ts:2135-2141): push the chunk, then if the chunk count exceeds
1000, keep only the most recent 500 (`output.slice(-500)`). -/
def stdoutData (chunk : String) (sess : ProcessSession) : ProcessSession :=
  let o := sess.output ++ [chunk]
  { sess with output := if o.length > 1000 then o.drop (o.length - 500) else o }

/-- Model of the `proc.stderr.on('data', ...)` handler
(src/index.ts:2143-2145): push the tagged chunk.  The source applies no
retention bound in this handler. -/
def stderrData (chunk : String) (sess : ProcessSession) : ProcessSession :=
  { sess with output := sess.output ++ ["[stderr] " ++ chunk] }

/-- Model of the `proc.on('close', ...)` handler (src/index.ts:2147-2150). -/
def closeEvent (code : Int) (sess : ProcessSession) : ProcessSession :=
  { sess with isRunning := false,
              output := sess.output ++ ["\n[Prozess beendet mit Code " ++ toString code ++ "]"] }

/-- Model of the `proc.on('error', ...)` handler (src/index.ts:2152-2155). -/
def errorEvent (msg : String) (sess : ProcessSession) : ProcessSession :=
  { sess with isRunning := false,
              output := sess.output ++ ["\n[Fehler: " ++ msg ++ "]"] }

/-- State of the process-session registry: the `processSessions` map and
`sessionCounter` (src/index.ts:51-52), plus the observable trace of
termination signals sent to operating-system processes (the effect of
`session.process.kill(...)`). -/
structure ProcReg where
  sessions : List (String × ProcessSession)
  counter : Nat
  signals : List (String × String)
deriving DecidableEq, Repr

/-- Model of `fc_read_output` (src/index.ts:2202-2225): unknown id is a
structured error; otherwise the full transcript is concatenated
(`session.output.join('')`) and rendered, and with `clear=true` the
transcript is emptied after the text has been built. -/
def readOutputText (running : Bool) (output : String) : String :=
  let status := if running then "🟢 Läuft" else "🔴 Beendet"
  "📤 **Session Output** (" ++ status ++ ")\n```\n" ++
    (if output = "" then "(kein Output)" else output) ++ "\n```"

/-- The `fc_read_output` handler itself. -/
def readOutput (sessionId : String) (clear : Bool) (pst : ProcReg) : ToolRes × ProcReg :=
  match lookupSess pst.sessions sessionId with
  | none =>
      (.err ("❌ Session nicht gefunden: " ++ sessionId ++
        "\n\nNutze fc_list_sessions für aktive Sessions."), pst)
  | some sess =>
      let text := readOutputText sess.isRunning (String.join sess.output)
      let pst' := if clear then
          { pst with sessions := updateSess (fun s => { s with output := [] }) pst.sessions sessionId }
        else pst
      (.ok text, pst')

/-- Model of the enumeration performed by `fc_list_sessions`
(src/index.ts:2315-2341): one row per registered session, keyed by id. -/
def listSessionIds (pst : ProcReg) : List String :=
  pst.sessions.map (fun p => p.1)

/-- Model of `fc_close_session` (src/index.ts:2368-2399): unknown id is a
structured error; otherwise, if the session is still running, a `SIGKILL`
(with `force=true`) or `SIGTERM` signal is sent to the process, and in
every case the entry is deleted from the registry. -/
def closeSession (sessionId : String) (force : Bool) (pst : ProcReg) : ToolRes × ProcReg :=
  match lookupSess pst.sessions sessionId with
  | none => (.err ("❌ Session nicht gefunden: " ++ sessionId), pst)
  | some sess =>
      let pst1 := if sess.isRunning then
          { pst with signals := pst.signals ++ [(sessionId, if force then "SIGKILL" else "SIGTERM")] }
        else pst
      (.ok ("✅ Session beendet und entfernt: " ++ sessionId),
        { pst1 with sessions := eraseSess pst1.sessions sessionId })

/-! ### Pattern compiler (`fc_start_search`, src/index.ts:1031-1036)

The source turns the wildcard string into a javascript regular expression:

  pattern.replace(/[.+^$\x7b\x7d()|[\]\\]/g, regex-escape)
         .replace(/\*/g, ".*").replace(/\?/g, ".")

wrapped as `new RegExp("^" + s + "$", "i")` and applied to a file base
name with `.test`.  We model the construction on character lists, then
give the ECMAScript semantics of the tiny regex fragment that construction
can produce: escaped literals, `.` (which, without the `s` flag, matches
any character EXCEPT the line terminators `\n`, `\r`, U+2028, U+2029) and
`.*`, anchored on both sides, with the `i` flag modelled as comparing
case-folded characters. -/

/-- The character class `[.+^$\x7b\x7d()|[\]\\]` escaped by the first
`replace` (src/index.ts:1033). -/
def escChars : List Char := ['.', '+', '^', '$', '\x7b', '\x7d', '(', ')', '|', '[', ']', '\\']

/-- First `replace`: prefix every regex metacharacter with a backslash. -/
def escapeRegex (p : List Char) : List Char :=
  p.flatMap (fun c => if c ∈ escChars then ['\\', c] else [c])

/-- Second `replace`: every `*` becomes `.*`. -/
def starExpand (s : List Char) : List Char :=
  s.flatMap (fun c => if c = '*' then ['.', '*'] else [c])

/-- Third `replace`: every `?` becomes `.`. -/
def qmarkExpand (s : List Char) : List Char :=
  s.map (fun c => if c = '?' then '.' else c)

/-- The regex source text built by `fc_start_search` (without the outer
`^`/`$`, which the matcher below treats as implicit anchoring). -/
def compileWildcard (p : List Char) : List Char :=
  qmarkExpand (starExpand (escapeRegex p))

/-- Tokens of the regex fragment language produced by `compileWildcard`:
an (escaped or plain) literal, the metacharacter `.`, and `.` under a `*`
quantifier. -/
inductive RTok where
  | lit (c : Char)
  | anyChar
  | anyStar
deriving DecidableEq, Repr

/-- Tokenizer for the produced regex text: `\\c` is a literal, `.`
followed by `*` is a starred dot, a bare `.` matches one character, and
anything else is a literal.  (A trailing lone backslash cannot arise from
`compileWildcard`; it lexes to nothing.) -/
def lexRegex : List Char → List RTok
  | [] => []
  | c :: rest =>
      if c = '\\' then
        match rest with
        | [] => []
        | c2 :: rest2 => .lit c2 :: lexRegex rest2
      else if c = '.' then
        match rest with
        | [] => [.anyChar]
        | c2 :: rest2 =>
            if c2 = '*' then .anyStar :: lexRegex rest2
            else .anyChar :: lexRegex (c2 :: rest2)
      else .lit c :: lexRegex rest

/-- ECMAScript line terminators, which `.` does not match when the `s`
(dotAll) flag is absent. -/
def isLineTerm (d : Char) : Bool :=
  d == '\n' || d == '\r' || d == '\u2028' || d == '\u2029'

/-- Suffixes of the input reachable by letting an un-dotAll `.*` consume
zero or more leading characters: it can consume any prefix of
non-line-terminator characters. -/
def starSuffixes : List Char → List (List Char)
  | [] => [[]]
  | d :: ds => (d :: ds) :: (if isLineTerm d then [] else starSuffixes ds)

/-- Anchored matching of a token sequence against a character sequence
(`regex.test(name)` for the fragment language above, `i` flag modelled by
case folding both sides; `.*` matches iff some number of consumed
characters lets the remainder match). -/
def rmatch : List RTok → List Char → Bool
  | [], ds => ds.isEmpty
  | .lit c :: ts, ds =>
      match ds with
      | [] => false
      | d :: ds' => (c.toLower == d.toLower) && rmatch ts ds'
  | .anyChar :: ts, ds =>
      match ds with
      | [] => false
      | d :: ds' => !(isLineTerm d) && rmatch ts ds'
  | .anyStar :: ts, ds => (starSuffixes ds).any (fun s => rmatch ts s)

/-- The compiled predicate of `fc_start_search`: `regex.test(name)`. -/
def testPattern (p : List Char) (name : List Char) : Bool :=
  rmatch (lexRegex (compileWildcard p)) name

/-- Modelled from the spec: wildcard matching as §4.1 words it — `*` is
zero-or-more arbitrary characters, `?` exactly one arbitrary character,
every other character a literal compared case-insensitively, whole-name
anchored. -/
def specWildcardMatch : List Char → List Char → Bool
  | [], ds => ds.isEmpty
  | c :: ps, ds =>
      if c = '*' then ds.tails.any (fun s => specWildcardMatch ps s)
      else
        match ds with
        | [] => false
        | d :: ds' =>
            (if c = '?' then true else c.toLower == d.toLower) &&
              specWildcardMatch ps ds'

/-- Wildcard matching as the code actually behaves: like
`specWildcardMatch`, except that the characters consumed by `*` and `?`
exclude the ECMAScript line terminators (because both compile to an
un-dotAll `.`). -/
def specWildcardMatchJS : List Char → List Char → Bool
  | [], ds => ds.isEmpty
  | c :: ps, ds =>
      if c = '*' then (starSuffixes ds).any (fun s => specWildcardMatchJS ps s)
      else
        match ds with
        | [] => false
        | d :: ds' =>
            (if c = '?' then !(isLineTerm d) else c.toLower == d.toLower) &&
              specWildcardMatchJS ps ds'

/-- The single token a source-pattern character compiles to. -/
def tokOf (c : Char) : RTok :=
  if c = '*' then .anyStar else if c = '?' then .anyChar else .lit c

/-- The characters a source-pattern character contributes to the compiled
regex text. -/
def fragChars (c : Char) : List Char :=
  if c = '*' then ['.', '*']
  else if c = '?' then ['.']
  else if c ∈ escChars then ['\\', c]
  else [c]

/-! ### Search sessions (`interface SearchSession`, src/index.ts:62-79,
and the tools `fc_start_search`, `fc_get_search_results`,
`fc_stop_search`, `fc_list_searches`, `fc_clear_search`) -/

/-- Model of `interface SearchSession` (src/index.ts:62-72).  `pattern`
holds the compiled regex (as its token sequence), `aborted` the state of
`abortController.signal`; `startTime` (wall clock, diagnostic runtime
display only) is omitted. -/
structure SearchSession where
  id : String
  directory : String
  pattern : List RTok
  patternString : String
  results : List String
  isRunning : Bool
  scannedDirs : Nat
  aborted : Bool
deriving DecidableEq, Repr

/-- State of the search registry: the `searchSessions` map and
`searchCounter` (src/index.ts:74-75), plus the ids of traversal tasks that
have been launched in the background and have not yet completed (the
un-awaited promise of src/index.ts:1056-1060). -/
structure SearchReg where
  sessions : List (String × SearchSession)
  counter : Nat
  pending : List String
deriving DecidableEq, Repr

/-- Kinds of filesystem nodes relevant to target validation. -/
inductive FileKind where
  | file
  | dir
deriving DecidableEq, Repr

/-- Abstract filesystem for validation: what `fs.access` can observe about
a path.  `none` means the path does not exist (access throws). -/
def FileSys : Type := String → Option FileKind

/-- Model of `pathExists` (src/index.ts:131-138): `fs.access` succeeds on
any existing path — file or directory alike. -/
def pathExists (fsys : FileSys) (p : String) : Bool :=
  (fsys p).isSome

/-- Model of `normalizePath` (src/index.ts:124-126).  `path.normalize`
only rewrites separators and dot segments; the claims under verification
are independent of it, so it is modelled as the identity. -/
def normalizePathM (p : String) : String := p

/-- Model of `generateSearchId` (src/index.ts:77-79): a fresh id from the
incremented counter.  The `Date.now()` suffix of the source id is wall
clock, not modelled; uniqueness within the registry is already given by
the counter. -/
def generateSearchId (counter : Nat) : String :=
  "search_" ++ toString (counter + 1)

/-- The success text of `fc_start_search` (src/index.ts:1062-1067). -/
def startSearchMsg (searchId dirPath pattern : String) : String :=
  "🔍 **Suche gestartet**\n\n| | |\n|---|---|\n| Search-ID | `" ++ searchId ++
    "` |\n| Verzeichnis | " ++ dirPath ++ " |\n| Muster | " ++ pattern ++
    " |\n\nNutze `fc_get_search_results` um Ergebnisse abzurufen."

/-- Model of `fc_start_search` (src/index.ts:1020-1075): normalize the
directory, error if `pathExists` fails, compile the pattern, register a
fresh running session with empty results, launch the traversal in the
background without awaiting it (`pending`), and return at once with the
new id. -/
def startSearch (fsys : FileSys) (directory pattern : String) (st : SearchReg) :
    ToolRes × SearchReg :=
  let dirPath := normalizePathM directory
  if !pathExists fsys dirPath then
    (.err ("❌ Verzeichnis nicht gefunden: " ++ dirPath), st)
  else
    let searchId := generateSearchId st.counter
    let session : SearchSession :=
      { id := searchId
        directory := dirPath
        pattern := lexRegex (compileWildcard pattern.toList)
        patternString := pattern
        results := []
        isRunning := true
        scannedDirs := 0
        aborted := false }
    (.ok (startSearchMsg searchId dirPath pattern),
      { st with counter := st.counter + 1
                sessions := insertSess st.sessions searchId session
                pending := st.pending ++ [searchId] })

/-- The structured values `fc_get_search_results` computes for a found
session (src/index.ts:1117-1121); the handler renders exactly these. -/
structure SearchPage where
  total : Nat
  page : List String
  hasMore : Bool
  scannedDirs : Nat
  isRunning : Bool
deriving DecidableEq, Repr

/-- Model of `fc_get_search_results` (src/index.ts:1107-1146): unknown id
is a structured error (`none`); otherwise the page is
`results.slice(offset, offset + limit)` with
`hasMore = totalResults > offset + limit`, and the registry state is not
touched. -/
def getSearchResults (searchId : String) (offset limit : Nat) (st : SearchReg) :
    Option SearchPage × SearchReg :=
  match lookupSess st.sessions searchId with
  | none => (none, st)
  | some sess =>
      (some { total := sess.results.length
              page := (sess.results.drop offset).take limit
              hasMore := decide (sess.results.length > offset + limit)
              scannedDirs := sess.scannedDirs
              isRunning := sess.isRunning }, st)

/-- Model of `fc_stop_search` (src/index.ts:1171-1193): unknown id is a
structured error; an already-finished search reports completion without
mutating anything; a running one has `isRunning` flipped to `false` and
the abort signal set. -/
def stopSearch (searchId : String) (st : SearchReg) : ToolRes × SearchReg :=
  match lookupSess st.sessions searchId with
  | none => (.err ("❌ Suche nicht gefunden: " ++ searchId), st)
  | some sess =>
      if !sess.isRunning then
        (.ok ("ℹ️ Suche bereits beendet. " ++ toString sess.results.length ++
          " Ergebnisse gefunden."), st)
      else
        (.ok ("⏹️ Suche gestoppt: " ++ searchId ++ "\n📊 " ++
          toString sess.results.length ++ " Ergebnisse bis hierhin gefunden."),
          { st with sessions :=
              (updateSess (fun s => { s with isRunning := false, aborted := true })
                st.sessions searchId) })

/-- Model of `fc_clear_search` (src/index.ts:1264-1299): `"all"` deletes
every non-running session and reports how many; a concrete id fails if it
is unknown or still running, and is deleted otherwise. -/
def clearSearch (searchId : String) (st : SearchReg) : ToolRes × SearchReg :=
  if searchId = "all" then
    let removed := st.sessions.filter (fun p => !p.2.isRunning)
    (.ok ("🧹 " ++ toString removed.length ++ " beendete Suchen entfernt."),
      { st with sessions := st.sessions.filter (fun p => p.2.isRunning) })
  else
    match lookupSess st.sessions searchId with
    | none => (.err ("❌ Suche nicht gefunden: " ++ searchId), st)
    | some sess =>
        if sess.isRunning then
          (.err "⚠️ Suche läuft noch. Nutze erst fc_stop_search.", st)
        else
          (.ok ("✅ Suche entfernt: " ++ searchId),
            { st with sessions := eraseSess st.sessions searchId })

/-! ### Cooperative traversal engine (`asyncSearchFiles`,
src/index.ts:84-115) -/

/-- A directory tree as the traversal observes it: files, directories
whose `fs.readdir` succeeds with an entry list, and directories whose
`fs.readdir` throws (permission denied or other read error), modelled as
`contents = none`. -/
inductive FSEntry where
  | file (name : String)
  | dir (name : String) (contents : Option (List FSEntry))

/-- The fixed deny-list of system directories (src/index.ts:105). -/
def skipDirs : List String :=
  ["node_modules", ".git", "$RECYCLE.BIN", "System Volume Information",
   "Windows", "Program Files", "Program Files (x86)"]

/-- The session fields `asyncSearchFiles` mutates: the result sequence and
the scanned-directory counter. -/
structure TravState where
  results : List String
  scannedDirs : Nat
deriving DecidableEq, Repr

/-- Model of `path.join(dirPath, entry.name)`. -/
def joinPath (dirPath name : String) : String :=
  dirPath ++ "/" ++ name

mutual

/-- Model of `asyncSearchFiles` (src/index.ts:84-115) on one directory:
return immediately if stopped or aborted; on a successful `readdir` count
the directory and walk its entries; on a failed `readdir` the `catch`
absorbs the error, so the whole subtree is abandoned with the state
untouched and nothing is thrown to the caller. -/
def goDir (pat : String → Bool) (running aborted : Bool) (dirPath : String)
    (contents : Option (List FSEntry)) (s : TravState) : TravState :=
  if !running || aborted then s
  else
    match contents with
    | none => s
    | some entries =>
        goEntries pat running aborted dirPath entries
          { s with scannedDirs := s.scannedDirs + 1 }

/-- The entry loop of `asyncSearchFiles` (src/index.ts:96-111): check the
signal before every entry, recurse into non-deny-listed directories,
append matching file names in discovery order. -/
def goEntries (pat : String → Bool) (running aborted : Bool) (dirPath : String)
    (es : List FSEntry) (s : TravState) : TravState :=
  match es with
  | [] => s
  | e :: rest =>
      if !running || aborted then s
      else
        match e with
        | .file n =>
            goEntries pat running aborted dirPath rest
              (if pat n then { s with results := s.results ++ [joinPath dirPath n] } else s)
        | .dir n c =>
            let s' := if skipDirs.contains n then s
                      else goDir pat running aborted (joinPath dirPath n) c s
            goEntries pat running aborted dirPath rest s'

end

/-! ### Claim theorems -/

/-- A completed sample search session used by concrete witnesses. -/
def sampleSearchSession : SearchSession :=
  { id := "search_1", directory := "/proj",
    pattern := lexRegex (compileWildcard "*.ts".toList), patternString := "*.ts",
    results := ["/proj/a.ts", "/proj/b.ts", "/proj/c.ts"],
    isRunning := false, scannedDirs := 2, aborted := false }

/-- A still-running sample search session used by concrete witnesses. -/
def runningSearchSession : SearchSession :=
  { id := "search_2", directory := "/proj",
    pattern := lexRegex (compileWildcard "*.ts".toList), patternString := "*.ts",
    results := ["/proj/a.ts"], isRunning := true, scannedDirs := 1, aborted := false }

/-- A sample search registry holding one completed and one running session. -/
def sampleSearchReg : SearchReg :=
  { sessions := [("search_1", sampleSearchSession), ("search_2", runningSearchSession)],
    counter := 2, pending := ["search_2"] }

/-- A running sample process session used by concrete witnesses. -/
def sampleProcSession : ProcessSession :=
  { id := "session_1", command := "python", args := [], cwd := "/home",
    output := ["a", "b"], isRunning := true }

/-- A sample process registry holding one running session. -/
def sampleProcReg : ProcReg :=
  { sessions := [("session_1", sampleProcSession)], counter := 1, signals := [] }

/-- A process session whose transcript already holds 1000 chunks, used by
the C1 counterexample and witness. -/
def bigProcSession : ProcessSession :=
  { id := "session_9", command := "bash", args := [], cwd := "/",
    output := List.replicate 1000 "x", isRunning := true }

/-- A filesystem in which `/tmp/afile` exists but is a regular file. -/
def fsFileOnly : FileSys :=
  fun p => if p = "/tmp/afile" then some FileKind.file else none

/-- A filesystem in which `/proj` exists and is a directory. -/
def fsDirOnly : FileSys :=
  fun p => if p = "/proj" then some FileKind.dir else none

/-- The empty search registry. -/
def emptySearchReg : SearchReg :=
  { sessions := [], counter := 0, pending := [] }

/-! ### Library lemmas for the embedding -/

theorem lookupSess_update_self {α : Type} (f : α → α) (m : List (String × α)) (k : String) :
    lookupSess (updateSess f m k) k = (lookupSess m k).map f := by
  induction m with
  | nil => rfl
  | cons p rest ih =>
      obtain ⟨k', v⟩ := p
      by_cases h : k' = k <;> simp [updateSess, lookupSess, h, ih]

theorem lookupSess_erase_self {α : Type} (m : List (String × α)) (k : String) :
    lookupSess (eraseSess m k) k = none := by
  induction m with
  | nil => rfl
  | cons p rest ih =>
      obtain ⟨k', v⟩ := p
      by_cases h : k' = k <;> simp [eraseSess, lookupSess, h, ih]

theorem not_mem_keys_erase_self {α : Type} (m : List (String × α)) (k : String) :
    k ∉ (eraseSess m k).map (fun p => p.1) := by
  induction m with
  | nil => simp [eraseSess]
  | cons p rest ih =>
      obtain ⟨k', v⟩ := p
      by_cases h : k' = k
      · simpa [eraseSess, h] using ih
      · simp only [eraseSess, h, if_false, List.map_cons, List.mem_cons]
        exact fun hh => hh.elim (fun he => h he.symm) ih

/-! ### Sanity checks of the compiled pattern predicate -/

example : testPattern "*.ts".toList "Main.TS".toList = true := by decide
example : testPattern "a?c".toList "abc".toList = true := by decide
example : testPattern "a?c".toList "ac".toList = false := by decide
example : testPattern "".toList "".toList = true := by decide
example : testPattern "?".toList "\n".toList = false := by decide
example : specWildcardMatch "?".toList "\n".toList = true := by decide

/-! ### Correspondence of the compiled regex with wildcard semantics -/

theorem compileWildcard_cons (c : Char) (p : List Char) :
    compileWildcard (c :: p) = fragChars c ++ compileWildcard p := by
  have key : qmarkExpand (starExpand (if c ∈ escChars then ['\\', c] else [c])) = fragChars c := by
    by_cases h1 : c = '*'
    · subst h1; decide
    · by_cases h2 : c = '?'
      · subst h2; decide
      · by_cases h3 : c ∈ escChars
        · simp [starExpand, qmarkExpand, fragChars, h1, h2, h3]
        · simp [starExpand, qmarkExpand, fragChars, h1, h2, h3]
  calc compileWildcard (c :: p)
      = qmarkExpand (starExpand ((if c ∈ escChars then ['\\', c] else [c]) ++ escapeRegex p)) := by
        simp [compileWildcard, escapeRegex]
    _ = qmarkExpand (starExpand (if c ∈ escChars then ['\\', c] else [c])) ++
          qmarkExpand (starExpand (escapeRegex p)) := by
        simp [starExpand, qmarkExpand]
    _ = fragChars c ++ compileWildcard p := by rw [key]; rfl

theorem compileWildcard_head_ne_star (p : List Char) :
    ∀ c2 s, compileWildcard p = c2 :: s → c2 ≠ '*' := by
  cases p with
  | nil => intro c2 s h; cases h
  | cons c p =>
      intro c2 s h
      rw [compileWildcard_cons] at h
      by_cases h1 : c = '*'
      · simp [fragChars, h1] at h
        rw [← h.1]; decide
      · by_cases h2 : c = '?'
        · simp [fragChars, h1, h2] at h
          rw [← h.1]; decide
        · by_cases h3 : c ∈ escChars
          · simp [fragChars, h1, h2, h3] at h
            rw [← h.1]; decide
          · simp [fragChars, h1, h2, h3] at h
            rw [h.1] at h1; exact h1

theorem lexRegex_fragChars (c : Char) (w : List Char)
    (hw : ∀ c2 s, w = c2 :: s → c2 ≠ '*') :
    lexRegex (fragChars c ++ w) = tokOf c :: lexRegex w := by
  by_cases h1 : c = '*'
  · subst h1
    simp only [fragChars, if_pos rfl]
    rfl
  · by_cases h2 : c = '?'
    · subst h2
      simp only [fragChars, h1, if_false, if_pos rfl]
      cases w with
      | nil => rfl
      | cons c2 s =>
          have hne := hw c2 s rfl
          simp [lexRegex, tokOf, hne]
    · by_cases h3 : c ∈ escChars
      · simp only [fragChars, h1, h2, if_false, if_pos h3]
        simp [lexRegex, tokOf, h1, h2]
      · have hb : c ≠ '\\' := fun h => h3 (h ▸ (by decide))
        have hd : c ≠ '.' := fun h => h3 (h ▸ (by decide))
        simp only [fragChars, h1, h2, h3, if_false]
        conv_lhs => rw [lexRegex.eq_def]
        simp [tokOf, h1, h2, hb, hd]

theorem lexRegex_compileWildcard (p : List Char) :
    lexRegex (compileWildcard p) = p.map tokOf := by
  induction p with
  | nil => rfl
  | cons c p ih =>
      rw [compileWildcard_cons, lexRegex_fragChars c _ (compileWildcard_head_ne_star p), ih]
      rfl

theorem rmatch_map_tokOf (ps : List Char) :
    ∀ ds, rmatch (ps.map tokOf) ds = specWildcardMatchJS ps ds := by
  induction ps with
  | nil => intro ds; rfl
  | cons c ps ih =>
      intro ds
      by_cases h1 : c = '*'
      · subst h1
        simp [rmatch, specWildcardMatchJS, tokOf, ih]
      · by_cases h2 : c = '?'
        · subst h2
          cases ds <;> simp [rmatch, specWildcardMatchJS, tokOf, ih]
        · cases ds <;> simp [rmatch, specWildcardMatchJS, tokOf, h1, h2, ih]

/-- C1, counterexample.  The claim says the retention bound (at most 1000
chunks after every append) holds "regardless of which stream (stdout or
stderr) it came from"; but the stderr data handler pushes without any
truncation, so appending one stderr chunk to a transcript of 1000 chunks
leaves 1001 chunks — more than 1000 and not truncated to 500. -/
theorem c1_counterexample :
    (stderrData "y" bigProcSession).output.length = 1001 ∧ 1000 < 1001 := by
  constructor
  · rw [show (stderrData "y" bigProcSession).output =
        List.replicate 1000 "x" ++ ["[stderr] y"] from rfl]
    simp only [List.length_append, List.length_replicate, List.length_cons, List.length_nil]
  · decide

/-- C1 (amended): the retention bound is enforced by the stdout handler
only — after every stdout append the transcript has at most 1000 chunks,
is a suffix of the pushed transcript (only oldest chunks are evicted), and
if the pre-append count was already at least 1000 the transcript is
truncated to exactly the most recent 500; an stderr append, by contrast,
always just pushes its tagged chunk with no truncation. -/
theorem c1_theorem (sess : ProcessSession) (chunk : String) :
    (stdoutData chunk sess).output.length ≤ 1000 ∧
    ((stdoutData chunk sess).output).IsSuffix (sess.output ++ [chunk]) ∧
    (1000 ≤ sess.output.length → (stdoutData chunk sess).output.length = 500) ∧
    (stderrData chunk sess).output = sess.output ++ ["[stderr] " ++ chunk] := by
  have hlen : (sess.output ++ [chunk]).length = sess.output.length + 1 := by simp
  refine ⟨?_, ?_, ?_, rfl⟩
  · simp only [stdoutData]
    split
    · next h => simp only [List.length_drop]; omega
    · next h => omega
  · simp only [stdoutData]
    split
    · exact List.drop_suffix _ _
    · exact List.suffix_refl _
  · intro hbig
    simp only [stdoutData]
    split
    · next h => simp only [List.length_drop]; omega
    · next h => omega

/-- Witness for `c1_theorem`: a transcript already holding 1000 chunks is
truncated to 500 by the next stdout append. -/
theorem c1_witness :
    1000 ≤ bigProcSession.output.length ∧
    (stdoutData "y" bigProcSession).output.length = 500 :=
  ⟨by rw [show bigProcSession.output = List.replicate 1000 "x" from rfl,
        List.length_replicate],
   (c1_theorem bigProcSession "y").2.2.1
     (by rw [show bigProcSession.output = List.replicate 1000 "x" from rfl,
          List.length_replicate])⟩

/-- C2: for a registered session with result sequence of length `L`,
`getSearchResults` returns the slice `results[offset .. offset+limit)`
(elementwise and in length), reports `total = L`, sets `hasMore` exactly
when `L > offset + limit`, and for `offset ≥ L` returns an empty page with
`hasMore = false`. -/
theorem c2_theorem (st : SearchReg) (searchId : String) (offset limit : Nat)
    (sess : SearchSession) (h : lookupSess st.sessions searchId = some sess)
    (hlim : 1 ≤ limit) :
    ∃ pg : SearchPage,
      (getSearchResults searchId offset limit st).1 = some pg ∧
      pg.total = sess.results.length ∧
      pg.page.length = min limit (sess.results.length - offset) ∧
      (∀ i : Nat, pg.page[i]? = if i < limit then sess.results[offset + i]? else none) ∧
      (pg.hasMore = true ↔ sess.results.length > offset + limit) ∧
      (sess.results.length ≤ offset → pg.page = [] ∧ pg.hasMore = false) := by
  have hres : (getSearchResults searchId offset limit st).1 =
      some { total := sess.results.length,
             page := (sess.results.drop offset).take limit,
             hasMore := decide (sess.results.length > offset + limit),
             scannedDirs := sess.scannedDirs,
             isRunning := sess.isRunning } := by
    simp [getSearchResults, h]
  refine ⟨_, hres, rfl, ?_, ?_, ?_, ?_⟩
  · simp [List.length_take, List.length_drop]
  · intro i
    rw [List.getElem?_take]
    split
    · rw [List.getElem?_drop]
    · rfl
  · simp
  · intro hoff
    constructor
    · simp [List.drop_eq_nil_of_le hoff]
    · simp only [decide_eq_false_iff_not]
      omega

/-- Witness for `c2_theorem` on the sample registry: three results, page
`[1, 1+2)`. -/
theorem c2_witness :
    lookupSess sampleSearchReg.sessions "search_1" = some sampleSearchSession ∧
    1 ≤ 2 ∧
    (∃ pg : SearchPage,
      (getSearchResults "search_1" 1 2 sampleSearchReg).1 = some pg ∧
      pg.total = sampleSearchSession.results.length ∧
      pg.page.length = min 2 (sampleSearchSession.results.length - 1) ∧
      (∀ i : Nat, pg.page[i]? = if i < 2 then sampleSearchSession.results[1 + i]? else none) ∧
      (pg.hasMore = true ↔ sampleSearchSession.results.length > 1 + 2) ∧
      (sampleSearchSession.results.length ≤ 1 → pg.page = [] ∧ pg.hasMore = false)) :=
  ⟨by decide, by decide,
   c2_theorem sampleSearchReg "search_1" 1 2 sampleSearchSession (by decide) (by decide)⟩

/-- C10: `fc_get_search_results` is observation-only — it returns the
registry state unchanged for every id, offset and limit, so polling can
never perturb a session or the registry. -/
theorem c10_theorem (searchId : String) (offset limit : Nat) (st : SearchReg) :
    (getSearchResults searchId offset limit st).2 = st := by
  cases h : lookupSess st.sessions searchId <;> simp [getSearchResults, h]

/-- C3, counterexample.  The claim says `fc_start_search` errors when the
target "exists but is not a directory"; but the handler validates only
`pathExists` (an `fs.access` probe, src/index.ts:131-138 and 1024), which
succeeds on a regular file, so starting a search on an existing file
returns a non-error result and registers a session. -/
theorem c3_counterexample :
    fsFileOnly "/tmp/afile" = some FileKind.file ∧
    (startSearch fsFileOnly "/tmp/afile" "*.ts" emptySearchReg).1.isOk = true := by
  constructor
  · rfl
  · rfl

/-- C3 (amended): `fc_start_search` returns a structured error exactly
when the target path does not exist at all (the existence probe accepts
files and directories alike); otherwise it registers a fresh session with
`isRunning = true` and empty results, launches the traversal as a
detached, un-awaited background task, and immediately returns a non-error
result carrying the new id. -/
theorem c3_theorem (fsys : FileSys) (directory pattern : String) (st : SearchReg) :
    (fsys directory = none →
      startSearch fsys directory pattern st =
        (.err ("❌ Verzeichnis nicht gefunden: " ++ directory), st)) ∧
    (fsys directory ≠ none →
      (startSearch fsys directory pattern st).1 =
        .ok (startSearchMsg (generateSearchId st.counter) directory pattern) ∧
      (generateSearchId st.counter,
        ({ id := generateSearchId st.counter, directory := directory,
           pattern := lexRegex (compileWildcard pattern.toList),
           patternString := pattern, results := [], isRunning := true,
           scannedDirs := 0, aborted := false } : SearchSession)) ∈
        (startSearch fsys directory pattern st).2.sessions ∧
      generateSearchId st.counter ∈ (startSearch fsys directory pattern st).2.pending) := by
  constructor
  · intro hnone
    simp [startSearch, pathExists, normalizePathM, hnone]
  · intro hsome
    have hex : pathExists fsys directory = true := by
      simp [pathExists, Option.isSome_iff_ne_none, hsome]
    refine ⟨?_, ?_, ?_⟩
    · simp [startSearch, normalizePathM, hex]
    · simp [startSearch, normalizePathM, hex, insertSess]
    · simp [startSearch, normalizePathM, hex]

/-- Witness for `c3_theorem`: starting a search on the existing directory
`/proj` of `fsDirOnly` from the empty registry. -/
theorem c3_witness :
    fsDirOnly "/proj" ≠ none ∧
    ((startSearch fsDirOnly "/proj" "*.ts" emptySearchReg).1 =
        .ok (startSearchMsg (generateSearchId emptySearchReg.counter) "/proj" "*.ts") ∧
      (generateSearchId emptySearchReg.counter,
        ({ id := generateSearchId emptySearchReg.counter, directory := "/proj",
           pattern := lexRegex (compileWildcard "*.ts".toList),
           patternString := "*.ts", results := [], isRunning := true,
           scannedDirs := 0, aborted := false } : SearchSession)) ∈
        (startSearch fsDirOnly "/proj" "*.ts" emptySearchReg).2.sessions ∧
      generateSearchId emptySearchReg.counter ∈
        (startSearch fsDirOnly "/proj" "*.ts" emptySearchReg).2.pending) :=
  ⟨by decide, (c3_theorem fsDirOnly "/proj" "*.ts" emptySearchReg).2 (by decide)⟩

/-- C4, counterexample.  The claim reads `?` as "exactly one arbitrary
character"; but `?` compiles to the regex atom `.` without the `s` flag,
which does not match a line terminator, so the name consisting of one
newline is rejected by the compiled predicate while the claimed semantics
accepts it. -/
theorem c4_counterexample :
    testPattern "?".toList "\n".toList = false ∧
    specWildcardMatch "?".toList "\n".toList = true := by
  constructor
  · decide
  · decide

/-- C4 (amended): the compiled predicate agrees with full-match,
case-insensitive wildcard semantics in which `*` matches zero or more and
`?` exactly one arbitrary character OTHER THAN the ECMAScript line
terminators; in particular the empty pattern accepts exactly the empty
name, and compilation is total. -/
theorem c4_theorem (p name : List Char) :
    testPattern p name = specWildcardMatchJS p name := by
  rw [testPattern, lexRegex_compileWildcard, rmatch_map_tokOf]

/-- C5: the traversal absorbs per-directory read failures — a directory
whose `readdir` throws contributes nothing (no results, no counter
increment, the state is returned untouched), and inside an entry list a
failing subdirectory is equivalent to its absence: siblings before and
after it are traversed exactly as without it, so matches found elsewhere
are still appended in discovery order.  The model is a total function, so
nothing escapes to the caller. -/
theorem c5_theorem (pat : String → Bool) (dirPath failName : String)
    (pre post : List FSEntry) (s : TravState) :
    goDir pat true false dirPath none s = s ∧
    goEntries pat true false dirPath (pre ++ FSEntry.dir failName none :: post) s =
      goEntries pat true false dirPath (pre ++ post) s := by
  constructor
  · simp [goDir]
  · induction pre generalizing s with
    | nil => simp [goEntries, goDir]
    | cons e pre ih =>
        cases e with
        | file n => simp only [List.cons_append, goEntries]; simp [ih]
        | dir n c => simp only [List.cons_append, goEntries]; simp [ih]

/-- C6: `fc_stop_search` is idempotent on a registered id — whatever the
first call did, the second call returns the non-error "already completed"
report (with the unchanged result count) and leaves the registry state of
the first call exactly as it was. -/
theorem c6_theorem (st : SearchReg) (searchId : String) (sess : SearchSession)
    (h : lookupSess st.sessions searchId = some sess) :
    stopSearch searchId (stopSearch searchId st).2 =
      (.ok ("ℹ️ Suche bereits beendet. " ++ toString sess.results.length ++
        " Ergebnisse gefunden."), (stopSearch searchId st).2) := by
  cases hrun : sess.isRunning with
  | false => simp [stopSearch, h, hrun]
  | true =>
      have h2 : lookupSess (stopSearch searchId st).2.sessions searchId =
          some { sess with isRunning := false, aborted := true } := by
        simp [stopSearch, h, hrun, lookupSess_update_self]
      set st1 := (stopSearch searchId st).2 with hst1
      simp [stopSearch, h2]

/-- Witness for `c6_theorem` on the sample registry's running session. -/
theorem c6_witness :
    lookupSess sampleSearchReg.sessions "search_2" = some runningSearchSession ∧
    stopSearch "search_2" (stopSearch "search_2" sampleSearchReg).2 =
      (.ok ("ℹ️ Suche bereits beendet. " ++ toString runningSearchSession.results.length ++
        " Ergebnisse gefunden."), (stopSearch "search_2" sampleSearchReg).2) :=
  ⟨by decide, c6_theorem sampleSearchReg "search_2" runningSearchSession (by decide)⟩

/-- C7: `fc_clear_search "all"` removes exactly the non-running sessions,
reports their count, keeps every running session registered, and a second
immediate `"all"` call succeeds reporting zero; the single-id variant
errors while the session is running and removes it once it is not. -/
theorem c7_theorem (st : SearchReg) :
    ((clearSearch "all" st).1 =
        .ok ("🧹 " ++ toString (st.sessions.filter (fun p => !p.2.isRunning)).length ++
          " beendete Suchen entfernt.") ∧
      (∀ id sess, (id, sess) ∈ (clearSearch "all" st).2.sessions ↔
        ((id, sess) ∈ st.sessions ∧ sess.isRunning = true)) ∧
      (clearSearch "all" (clearSearch "all" st).2).1 =
        .ok ("🧹 0 beendete Suchen entfernt.")) ∧
    (∀ id sess, id ≠ "all" → lookupSess st.sessions id = some sess →
      (sess.isRunning = true →
        clearSearch id st = (.err "⚠️ Suche läuft noch. Nutze erst fc_stop_search.", st)) ∧
      (sess.isRunning = false →
        (clearSearch id st).1 = .ok ("✅ Suche entfernt: " ++ id) ∧
        lookupSess (clearSearch id st).2.sessions id = none)) := by
  refine ⟨⟨rfl, ?_, ?_⟩, ?_⟩
  · intro id sess
    simp [clearSearch, List.mem_filter]
  · have hnil : ((clearSearch "all" st).2.sessions.filter (fun p => !p.2.isRunning)) = [] := by
      have hsess2 : (clearSearch "all" st).2.sessions =
          st.sessions.filter (fun p => p.2.isRunning) := by
        simp [clearSearch]
      rw [hsess2, List.filter_filter]
      simp
    set st1 := (clearSearch "all" st).2 with hst1
    have hfst : (clearSearch "all" st1).1 =
        .ok ("🧹 " ++ toString (st1.sessions.filter (fun p => !p.2.isRunning)).length ++
          " beendete Suchen entfernt.") := rfl
    rw [hfst, hnil]
    rfl
  · intro id sess hne h
    constructor
    · intro hrun
      simp [clearSearch, hne, h, hrun]
    · intro hnrun
      refine ⟨by simp [clearSearch, hne, h, hnrun], ?_⟩
      simp [clearSearch, hne, h, hnrun, lookupSess_erase_self]

/-- Witness for `c7_theorem`: removing the completed session of the
sample registry. -/
theorem c7_witness :
    ("search_1" : String) ≠ "all" ∧
    lookupSess sampleSearchReg.sessions "search_1" = some sampleSearchSession ∧
    sampleSearchSession.isRunning = false ∧
    ((clearSearch "search_1" sampleSearchReg).1 = .ok ("✅ Suche entfernt: " ++ "search_1") ∧
      lookupSess (clearSearch "search_1" sampleSearchReg).2.sessions "search_1" = none) :=
  ⟨by decide, by decide, rfl,
   (((c7_theorem sampleSearchReg).2 "search_1" sampleSearchSession (by decide) (by decide)).2 rfl)⟩

/-- C8: closing a registered session always removes it from the registry
(it disappears from `fc_list_sessions`) and reports success, no matter
whether the operating-system process has exited; when the session was
still marked running, the graceful (`SIGTERM`) or forceful (`SIGKILL`)
signal is sent before removal, and no signal is sent otherwise. -/
theorem c8_theorem (pst : ProcReg) (sessionId : String) (force : Bool)
    (sess : ProcessSession) (h : lookupSess pst.sessions sessionId = some sess) :
    (closeSession sessionId force pst).1 =
      .ok ("✅ Session beendet und entfernt: " ++ sessionId) ∧
    lookupSess (closeSession sessionId force pst).2.sessions sessionId = none ∧
    sessionId ∉ listSessionIds (closeSession sessionId force pst).2 ∧
    (sess.isRunning = true →
      (closeSession sessionId force pst).2.signals =
        pst.signals ++ [(sessionId, if force then "SIGKILL" else "SIGTERM")]) ∧
    (sess.isRunning = false → (closeSession sessionId force pst).2.signals = pst.signals) := by
  cases hrun : sess.isRunning
  · exact ⟨by simp [closeSession, h, hrun],
      by simp [closeSession, h, hrun, lookupSess_erase_self],
      by simp only [closeSession, h, hrun]; exact not_mem_keys_erase_self _ _,
      by simp [hrun],
      by simp [closeSession, h, hrun]⟩
  · exact ⟨by simp [closeSession, h, hrun],
      by simp [closeSession, h, hrun, lookupSess_erase_self],
      by simp only [closeSession, h, hrun]; exact not_mem_keys_erase_self _ _,
      by simp [closeSession, h, hrun],
      by simp [hrun]⟩

/-- Witness for `c8_theorem`: force-closing the running sample session. -/
theorem c8_witness :
    lookupSess sampleProcReg.sessions "session_1" = some sampleProcSession ∧
    ((closeSession "session_1" true sampleProcReg).1 =
        .ok ("✅ Session beendet und entfernt: " ++ "session_1") ∧
      lookupSess (closeSession "session_1" true sampleProcReg).2.sessions "session_1" = none ∧
      "session_1" ∉ listSessionIds (closeSession "session_1" true sampleProcReg).2 ∧
      (sampleProcSession.isRunning = true →
        (closeSession "session_1" true sampleProcReg).2.signals =
          sampleProcReg.signals ++ [("session_1", if true then "SIGKILL" else "SIGTERM")]) ∧
      (sampleProcSession.isRunning = false →
        (closeSession "session_1" true sampleProcReg).2.signals = sampleProcReg.signals)) :=
  ⟨by decide, c8_theorem sampleProcReg "session_1" true sampleProcSession (by decide)⟩

/-- C9: `fc_read_output` fails only for an unknown id; for a registered
session — running or not — it returns the rendering of the in-order
concatenation of every chunk currently in the transcript, and with
`clear=true` the transcript (exactly the chunks just returned) is emptied
while `clear=false` leaves the registry untouched. -/
theorem c9_theorem (pst : ProcReg) (sessionId : String) (clear : Bool) :
    (lookupSess pst.sessions sessionId = none →
      readOutput sessionId clear pst =
        (.err ("❌ Session nicht gefunden: " ++ sessionId ++
          "\n\nNutze fc_list_sessions für aktive Sessions."), pst)) ∧
    (∀ sess, lookupSess pst.sessions sessionId = some sess →
      (readOutput sessionId clear pst).1 =
        .ok (readOutputText sess.isRunning (String.join sess.output)) ∧
      (clear = true →
        lookupSess (readOutput sessionId clear pst).2.sessions sessionId =
          some { sess with output := [] }) ∧
      (clear = false → (readOutput sessionId clear pst).2 = pst)) := by
  constructor
  · intro hn
    simp [readOutput, hn]
  · intro sess h
    refine ⟨by simp [readOutput, h], ?_, ?_⟩
    · intro hc
      simp [readOutput, h, hc, lookupSess_update_self]
    · intro hc
      simp [readOutput, h, hc]

/-- Witness for `c9_theorem`: clearing read on the sample session. -/
theorem c9_witness :
    lookupSess sampleProcReg.sessions "session_1" = some sampleProcSession ∧
    ((readOutput "session_1" true sampleProcReg).1 =
        .ok (readOutputText sampleProcSession.isRunning (String.join sampleProcSession.output)) ∧
      (true = true →
        lookupSess (readOutput "session_1" true sampleProcReg).2.sessions "session_1" =
          some { sampleProcSession with output := [] }) ∧
      (true = false → (readOutput "session_1" true sampleProcReg).2 = sampleProcReg)) :=
  ⟨by decide, (c9_theorem sampleProcReg "session_1" true).2 sampleProcSession (by decide)⟩
